import Mathlib

/-!
Shallow embedding of the regmsg CLI client (`src/bin/cli/main.rs`).

The client has two parts:
* a pure command encoder `build_command_string` that turns the parsed CLI
  invocation (subcommand, optional `--screen` identifier, trailing raw
  arguments) into a single request string;
* an effectful round trip (`main` / `handle_command`) over a ZeroMQ REQ
  socket: connect, send, blocking receive, decode the first reply frame as
  UTF-8, print it, with connect/send outcomes discarded via `let _ = ...`.

The encoder is embedded directly.  The effectful part is embedded by
explicit outcome passing: a `TransportOutcomes` record holds the results
the environment hands to the connect, send and receive operations in
program order, and `handle_command` / `mainExitCode` are functions of
those outcomes, mirroring the source's control flow.
-/

namespace Regmsg

/-- The `CliError` enum of the source: one constructor per error category
(socket/transport, UTF-8 decoding, IO, logger installation). -/
inductive CliError where
  | socketError
  | utf8Error
  | ioError
  | logError
  deriving DecidableEq, Repr

/-- The `Commands` subcommand enum: eleven nullary variants and three
variants carrying one `String` payload, as in the source. -/
inductive Commands where
  | listModes
  | listOutputs
  | currentMode
  | currentOutput
  | currentResolution
  | currentRotation
  | currentRefresh
  | currentBackend
  | setMode (mode : String)
  | setOutput (output : String)
  | setRotation (rotation : String)
  | getScreenshot
  | mapTouchScreen
  | minToMaxResolution
  deriving DecidableEq, Repr

/-- The parsed invocation (`struct Cli`): optional target screen, the
terminal-logging flag, the subcommand, and the trailing raw arguments. -/
structure Cli where
  screen : Option String
  log : Bool
  command : Commands
  args : List String
  deriving DecidableEq, Repr

/-- Embedding of Rust's `slice::join` on strings: concatenate the
elements, inserting `sep` between consecutive ones. -/
def joinSep (sep : String) : List String → String
  | [] => ""
  | a :: rest => if rest.isEmpty then a else (a ++ sep) ++ joinSep sep rest

/-- Embedding of `build_command_string`: keyword (with payload appended
for the three payload variants, via `format!`), then the `--screen`
suffix when a screen is given, then the joined trailing arguments when
the argument list is non-empty. -/
def build_command_string (cli : Cli) : String :=
  let cmd :=
    match cli.command with
    | .listModes => "listModes"
    | .listOutputs => "listOutputs"
    | .currentMode => "currentMode"
    | .currentOutput => "currentOutput"
    | .currentResolution => "currentResolution"
    | .currentRotation => "currentRotation"
    | .currentRefresh => "currentRefresh"
    | .currentBackend => "currentBackend"
    | .setMode mode => "setMode " ++ mode
    | .setOutput output => "setOutput " ++ output
    | .setRotation rotation => "setRotation " ++ rotation
    | .getScreenshot => "getScreenshot"
    | .mapTouchScreen => "mapTouchScreen"
    | .minToMaxResolution => "minToMaxResolution"
  let cmd :=
    match cli.screen with
    | some screen => cmd ++ (" --screen " ++ screen)
    | none => cmd
  if cli.args.isEmpty then cmd else (cmd ++ " ") ++ joinSep " " cli.args

/-- The wire keyword of a variant: the string the match arm of
`build_command_string` starts from, with the payload stripped. -/
def keyword : Commands → String
  | .listModes => "listModes"
  | .listOutputs => "listOutputs"
  | .currentMode => "currentMode"
  | .currentOutput => "currentOutput"
  | .currentResolution => "currentResolution"
  | .currentRotation => "currentRotation"
  | .currentRefresh => "currentRefresh"
  | .currentBackend => "currentBackend"
  | .setMode _ => "setMode"
  | .setOutput _ => "setOutput"
  | .setRotation _ => "setRotation"
  | .getScreenshot => "getScreenshot"
  | .mapTouchScreen => "mapTouchScreen"
  | .minToMaxResolution => "minToMaxResolution"

/-- The payload strings a variant carries: one for the three `set*`
variants, none for the nullary ones. -/
def payloadList : Commands → List String
  | .setMode mode => [mode]
  | .setOutput output => [output]
  | .setRotation rotation => [rotation]
  | _ => []

/-- The payload contribution to the encoded string: a space plus the
payload for the payload-carrying variants, empty otherwise. -/
def payloadPart : Commands → String
  | .setMode mode => " " ++ mode
  | .setOutput output => " " ++ output
  | .setRotation rotation => " " ++ rotation
  | _ => ""

/-- The screen-modifier contribution to the encoded string. -/
def screenPart : Option String → String
  | some screen => " --screen " ++ screen
  | none => ""

/-- The trailing-argument contribution to the encoded string. -/
def argsPart : List String → String
  | [] => ""
  | a :: rest => " " ++ joinSep " " (a :: rest)

/-- The list of the fourteen variant keywords, in source order. -/
def keywords : List String :=
  ["listModes", "listOutputs", "currentMode", "currentOutput",
   "currentResolution", "currentRotation", "currentRefresh",
   "currentBackend", "setMode", "setOutput", "setRotation",
   "getScreenshot", "mapTouchScreen", "minToMaxResolution"]

/-! ## Reply decoding (`String::from_utf8` on the first frame) -/

/-- A continuation byte `0x80..0xBF`. -/
def isUtf8Cont (b : Nat) : Bool := 0x80 ≤ b && b ≤ 0xBF

/-- Embedding of `String::from_utf8`'s validation and decoding, on a byte
list: the standard UTF-8 table (rejecting overlong forms, surrogates and
codepoints above `0x10FFFF`), returning the decoded characters, or `none`
when the bytes are not valid UTF-8. -/
def utf8DecodeChars : List Nat → Option (List Char)
  | [] => some []
  | b :: rest =>
    if b ≤ 0x7F then
      (utf8DecodeChars rest).map (fun cs => Char.ofNat b :: cs)
    else if 0xC2 ≤ b && b ≤ 0xDF then
      match rest with
      | c1 :: r =>
        if isUtf8Cont c1 then
          (utf8DecodeChars r).map
            (fun cs => Char.ofNat ((b - 0xC0) * 0x40 + (c1 - 0x80)) :: cs)
        else none
      | [] => none
    else if b == 0xE0 then
      match rest with
      | c1 :: c2 :: r =>
        if (0xA0 ≤ c1 && c1 ≤ 0xBF) && isUtf8Cont c2 then
          (utf8DecodeChars r).map
            (fun cs =>
              Char.ofNat ((b - 0xE0) * 0x1000 + (c1 - 0x80) * 0x40 + (c2 - 0x80)) :: cs)
        else none
      | _ => none
    else if (0xE1 ≤ b && b ≤ 0xEC) || (0xEE ≤ b && b ≤ 0xEF) then
      match rest with
      | c1 :: c2 :: r =>
        if isUtf8Cont c1 && isUtf8Cont c2 then
          (utf8DecodeChars r).map
            (fun cs =>
              Char.ofNat ((b - 0xE0) * 0x1000 + (c1 - 0x80) * 0x40 + (c2 - 0x80)) :: cs)
        else none
      | _ => none
    else if b == 0xED then
      match rest with
      | c1 :: c2 :: r =>
        if (0x80 ≤ c1 && c1 ≤ 0x9F) && isUtf8Cont c2 then
          (utf8DecodeChars r).map
            (fun cs =>
              Char.ofNat ((b - 0xE0) * 0x1000 + (c1 - 0x80) * 0x40 + (c2 - 0x80)) :: cs)
        else none
      | _ => none
    else if b == 0xF0 then
      match rest with
      | c1 :: c2 :: c3 :: r =>
        if (0x90 ≤ c1 && c1 ≤ 0xBF) && (isUtf8Cont c2 && isUtf8Cont c3) then
          (utf8DecodeChars r).map
            (fun cs =>
              Char.ofNat ((b - 0xF0) * 0x40000 + (c1 - 0x80) * 0x1000 +
                (c2 - 0x80) * 0x40 + (c3 - 0x80)) :: cs)
        else none
      | _ => none
    else if 0xF1 ≤ b && b ≤ 0xF3 then
      match rest with
      | c1 :: c2 :: c3 :: r =>
        if isUtf8Cont c1 && (isUtf8Cont c2 && isUtf8Cont c3) then
          (utf8DecodeChars r).map
            (fun cs =>
              Char.ofNat ((b - 0xF0) * 0x40000 + (c1 - 0x80) * 0x1000 +
                (c2 - 0x80) * 0x40 + (c3 - 0x80)) :: cs)
        else none
      | _ => none
    else if b == 0xF4 then
      match rest with
      | c1 :: c2 :: c3 :: r =>
        if (0x80 ≤ c1 && c1 ≤ 0x8F) && (isUtf8Cont c2 && isUtf8Cont c3) then
          (utf8DecodeChars r).map
            (fun cs =>
              Char.ofNat ((b - 0xF0) * 0x40000 + (c1 - 0x80) * 0x1000 +
                (c2 - 0x80) * 0x40 + (c3 - 0x80)) :: cs)
        else none
      | _ => none
    else none

/-- Embedding of `String::from_utf8(frame.to_vec())` mapped through the
`From<FromUtf8Error> for CliError` conversion of the `?` operator. -/
def string_from_utf8 (bytes : List Nat) : Except CliError String :=
  match utf8DecodeChars bytes with
  | some cs => .ok (String.mk cs)
  | none => .error .utf8Error

/-- Embedding of the reply extraction in `handle_command`: `reply.get(0)`
decoded as UTF-8 when a first frame exists, the empty string otherwise. -/
def reply_str_of (reply : List (List Nat)) : Except CliError String :=
  match reply.head? with
  | some frame => string_from_utf8 frame
  | none => .ok ""

/-! ## Transport round trip (`main` / `handle_command`) -/

/-- The outcomes the environment hands to the three socket effects, in
program order: `socket.connect(...)`, `socket.send(...)`, `socket.recv()`
(the latter returning the reply envelope as a list of byte frames). -/
structure TransportOutcomes where
  connectResult : Except CliError Unit
  sendResult : Except CliError Unit
  recvResult : Except CliError (List (List Nat))
  deriving Repr

/-- Embedding of `handle_command`: builds the command string, discards
the send outcome (`let _ = socket.send(..)`), propagates a receive
failure with `?`, and otherwise decodes the first reply frame.  The
returned string is the reply text the source prints. -/
def handle_command (cli : Cli) (t : TransportOutcomes) : Except CliError String :=
  let _cmd := build_command_string cli
  let _ := t.sendResult
  match t.recvResult with
  | .error e => .error e
  | .ok reply => reply_str_of reply

/-- Embedding of `main`'s exit code as a function of the logging-init
outcome and the transport outcomes: a logging failure makes `main` return
`Err`, which the runtime maps to exit code 1; the connect outcome is
discarded (`let _ = socket.connect(..)`); a `handle_command` error hits
`std::process::exit(1)`; otherwise the process exits 0. -/
def mainExitCode (cli : Cli) (loggingResult : Except CliError Unit)
    (t : TransportOutcomes) : Nat :=
  match loggingResult with
  | .error _ => 1
  | .ok _ =>
    let _ := t.connectResult
    match handle_command cli t with
    | .error _ => 1
    | .ok _ => 0

/-- Whether a string contains a newline character. -/
def hasNL (s : String) : Bool := s.data.any (fun ch => ch == Char.ofNat 10)

/-! ## Helper lemmas -/

theorem dataSetMode : "setMode ".data = "setMode".data ++ " ".data := rfl

theorem dataSetOutput : "setOutput ".data = "setOutput".data ++ " ".data := rfl

theorem dataSetRotation : "setRotation ".data = "setRotation".data ++ " ".data := rfl

theorem dataEmpty : ("".data : List Char) = [] := rfl

/-- The encoded string decomposes into the four independent parts, in
fixed order: keyword, payload part, screen part, trailing-argument part. -/
theorem build_decomp (cli : Cli) :
    build_command_string cli =
      keyword cli.command ++
        (payloadPart cli.command ++ (screenPart cli.screen ++ argsPart cli.args)) := by
  obtain ⟨screen, lg, command, args⟩ := cli
  cases command <;> cases screen <;> cases args <;>
    · apply String.ext
      simp [build_command_string, keyword, payloadPart, screenPart, argsPart,
        String.data_append, dataSetMode, dataSetOutput, dataSetRotation, dataEmpty]

/-- The screen identifiers an invocation context carries (none or one). -/
def screenList : Option String → List String
  | some screen => [screen]
  | none => []

/-- The encoder with the trailing-argument step removed: only the keyword
match and the `--screen` step, following the spec's description of an
invocation whose trailing arguments are absent. -/
def build_command_string_dropArgsStep (cli : Cli) : String :=
  let cmd :=
    match cli.command with
    | .listModes => "listModes"
    | .listOutputs => "listOutputs"
    | .currentMode => "currentMode"
    | .currentOutput => "currentOutput"
    | .currentResolution => "currentResolution"
    | .currentRotation => "currentRotation"
    | .currentRefresh => "currentRefresh"
    | .currentBackend => "currentBackend"
    | .setMode mode => "setMode " ++ mode
    | .setOutput output => "setOutput " ++ output
    | .setRotation rotation => "setRotation " ++ rotation
    | .getScreenshot => "getScreenshot"
    | .mapTouchScreen => "mapTouchScreen"
    | .minToMaxResolution => "minToMaxResolution"
  match cli.screen with
  | some screen => cmd ++ (" --screen " ++ screen)
  | none => cmd

theorem hasNL_append (a b : String) : hasNL (a ++ b) = (hasNL a || hasNL b) := by
  simp [hasNL, String.data_append]

theorem hasNL_keyword (c : Commands) : hasNL (keyword c) = false := by
  cases c <;> simp only [keyword] <;> decide

theorem hasNL_joinSep (l : List String) (h : (l.all fun a => !hasNL a) = true) :
    hasNL (joinSep " " l) = false := by
  induction l with
  | nil => decide
  | cons a rest ih =>
    simp only [List.all_cons, Bool.and_eq_true, Bool.not_eq_eq_eq_not, Bool.not_true] at h
    cases rest with
    | nil => simpa [joinSep] using h.1
    | cons b bs =>
      have hr := ih (by simpa using h.2)
      have hu : joinSep " " (a :: b :: bs) = (a ++ " ") ++ joinSep " " (b :: bs) := rfl
      rw [hu, hasNL_append, hasNL_append, h.1, hr]
      decide

/-! ## Claim theorems -/

/-- C1: for every Command variant, screen identifier and trailing-argument
list, the encoder output is the variant keyword, then the payload part
(one space plus the payload, when the variant carries one), then the
screen part (` --screen ` plus the identifier, when present), then the
trailing-argument part (one space plus the arguments joined by single
spaces in order, when non-empty), in this fixed order; since this
decomposition holds for every invocation context, varying the context
fields never reorders the parts. -/
theorem c1_composition_order (cli : Cli) :
    build_command_string cli =
      keyword cli.command ++
        (payloadPart cli.command ++ (screenPart cli.screen ++ argsPart cli.args)) :=
  build_decomp cli

/-- C2: the outcomes of connect and send are discarded: the reply and the
exit code are unchanged under any change of the connect and send
outcomes, and the session always proceeds to the blocking receive, whose
failure is the first to surface as an error. -/
theorem c2_discarded_connect_send (cli : Cli) (lr : Except CliError Unit)
    (cr cr2 sr sr2 : Except CliError Unit)
    (rr : Except CliError (List (List Nat))) :
    handle_command cli ⟨cr, sr, rr⟩ = handle_command cli ⟨cr2, sr2, rr⟩ ∧
    mainExitCode cli lr ⟨cr, sr, rr⟩ = mainExitCode cli lr ⟨cr2, sr2, rr⟩ ∧
    handle_command cli ⟨cr, sr, rr⟩ = Except.bind rr reply_str_of := by
  refine ⟨rfl, by cases lr <;> rfl, ?_⟩
  cases rr <;> rfl

/-- C3: an empty reply envelope (zero frames) decodes to the empty string
and never produces an error: `handle_command` succeeds with `""`. -/
theorem c3_empty_envelope (cli : Cli) (cr sr : Except CliError Unit) :
    reply_str_of [] = .ok "" ∧
    handle_command cli ⟨cr, sr, .ok []⟩ = .ok "" :=
  ⟨rfl, rfl⟩

/-- C4: when the first frame of the reply envelope is not valid UTF-8,
decoding fails with the UTF-8 `CliError` and the process exits with the
non-zero code 1. -/
theorem c4_invalid_utf8 (cli : Cli) (cr sr : Except CliError Unit)
    (frame : List Nat) (rest : List (List Nat))
    (h : utf8DecodeChars frame = none) :
    handle_command cli ⟨cr, sr, .ok (frame :: rest)⟩ = .error .utf8Error ∧
    mainExitCode cli (.ok ()) ⟨cr, sr, .ok (frame :: rest)⟩ = 1 := by
  have h1 : handle_command cli ⟨cr, sr, .ok (frame :: rest)⟩ = .error .utf8Error := by
    simp [handle_command, reply_str_of, string_from_utf8, h]
  exact ⟨h1, by simp [mainExitCode, h1]⟩

/-- Witness for C4 at the single invalid byte `0xFF`. -/
theorem c4_invalid_utf8_witness :
    utf8DecodeChars [255] = none ∧
    (handle_command ⟨none, false, Commands.listModes, []⟩
        ⟨.ok (), .ok (), .ok [[255]]⟩ = .error .utf8Error ∧
      mainExitCode ⟨none, false, Commands.listModes, []⟩ (.ok ())
        ⟨.ok (), .ok (), .ok [[255]]⟩ = 1) :=
  ⟨by decide, c4_invalid_utf8 _ _ _ _ _ (by decide)⟩

/-- C5: the exit code is 0 exactly when logging initialisation succeeded,
a reply envelope was received, and its first frame (if present) decodes
as UTF-8 — regardless of the reply's content; any transport, decoding or
logging failure yields a non-zero code. -/
theorem c5_exit_code (cli : Cli) (lr : Except CliError Unit)
    (t : TransportOutcomes) :
    mainExitCode cli lr t = 0 ↔
      lr = .ok () ∧ ∃ env s, t.recvResult = .ok env ∧ reply_str_of env = .ok s := by
  obtain ⟨cr, sr, rr⟩ := t
  cases lr with
  | error e => simp [mainExitCode]
  | ok u =>
    cases u
    cases rr with
    | error e => simp [mainExitCode, handle_command]
    | ok env =>
      cases h : reply_str_of env with
      | error e => simp [mainExitCode, handle_command, h]
      | ok s => simp [mainExitCode, handle_command, h]

/-- C6: every nullary variant (one carrying no payload) with no screen
and no trailing arguments encodes to exactly its keyword, and the keyword
contains no whitespace at all (so in particular no trailing
whitespace). -/
theorem c6_nullary_exact_keyword (l : Bool) (c : Commands)
    (h : payloadList c = []) :
    build_command_string ⟨none, l, c, []⟩ = keyword c ∧
      ((keyword c).data.all fun ch => !ch.isWhitespace) = true := by
  cases c <;> first
    | exact ⟨rfl, by decide⟩
    | simp [payloadList] at h

/-- Witness for C6 at `ListModes`. -/
theorem c6_nullary_exact_keyword_witness :
    payloadList Commands.listModes = [] ∧
    (build_command_string ⟨none, false, Commands.listModes, []⟩ = "listModes" ∧
      (("listModes".data.all fun ch => !ch.isWhitespace) = true)) :=
  ⟨rfl, c6_nullary_exact_keyword false Commands.listModes rfl⟩

/-- C7: each payload-carrying variant encodes (with no screen and no
trailing arguments) to its keyword, one space, then the payload verbatim
with no escaping; in particular `SetMode "1920x1080"` encodes to
`"setMode 1920x1080"`. -/
theorem c7_payload_verbatim (l : Bool) (p : String) :
    build_command_string ⟨none, l, .setMode p, []⟩ = "setMode" ++ (" " ++ p) ∧
    build_command_string ⟨none, l, .setOutput p, []⟩ = "setOutput" ++ (" " ++ p) ∧
    build_command_string ⟨none, l, .setRotation p, []⟩ = "setRotation" ++ (" " ++ p) ∧
    build_command_string ⟨none, l, .setMode "1920x1080", []⟩ = "setMode 1920x1080" := by
  refine ⟨?_, ?_, ?_, rfl⟩ <;>
    · apply String.ext
      simp [build_command_string, String.data_append,
        dataSetMode, dataSetOutput, dataSetRotation]

/-- C8: every encoded command starts with its variant's keyword; the
fourteen keywords are pairwise distinct and none is a prefix of another,
so no prefix collision can make two encoded commands ambiguous. -/
theorem c8_keywords_distinct_and_free :
    (∀ cli : Cli, ∃ rest, build_command_string cli = keyword cli.command ++ rest) ∧
    (∀ c : Commands, keyword c ∈ keywords) ∧
    keywords.Pairwise
      (fun a b => a ≠ b ∧ ¬ (a.toList <+: b.toList) ∧ ¬ (b.toList <+: a.toList)) := by
  refine ⟨fun cli => ⟨_, build_decomp cli⟩, fun c => ?_, by decide⟩
  cases c <;> simp [keyword, keywords]

/-- C9 counterexample: a payload containing a newline makes the encoder
output contain a newline, so the claim fails for arbitrary payload
strings. -/
theorem c9_counterexample :
    hasNL (build_command_string ⟨none, false, .setMode "a\nb", []⟩) = true := by
  decide

/-- C9 (amended): the encoder introduces no newline of its own — whenever
the payload, the screen identifier and every trailing argument contain no
newline character, the encoded request string contains none. -/
theorem c9_newline_free (screen : Option String) (l : Bool) (c : Commands)
    (args : List String)
    (h1 : ((payloadList c).all fun p => !hasNL p) = true)
    (h2 : ((screenList screen).all fun s => !hasNL s) = true)
    (h3 : (args.all fun a => !hasNL a) = true) :
    hasNL (build_command_string ⟨screen, l, c, args⟩) = false := by
  rw [build_decomp, hasNL_append, hasNL_append, hasNL_append, hasNL_keyword]
  have hp : hasNL (payloadPart c) = false := by
    cases c <;>
      simp_all [payloadList, payloadPart, hasNL_append] <;> decide
  have hs : hasNL (screenPart screen) = false := by
    cases screen with
    | none => decide
    | some s =>
      simp only [screenList, List.all_cons, List.all_nil, Bool.and_true,
        Bool.not_eq_eq_eq_not, Bool.not_true] at h2
      simp [screenPart, hasNL_append, h2]
      decide
  have ha : hasNL (argsPart args) = false := by
    cases args with
    | nil => decide
    | cons a rest =>
      have hj := hasNL_joinSep (a :: rest) h3
      simp [argsPart, hasNL_append, hj]
      decide
  simp [hp, hs, ha]

/-- Witness for the amended C9 on a newline-free invocation. -/
theorem c9_newline_free_witness :
    (((payloadList (Commands.setMode "1920x1080")).all fun p => !hasNL p) = true) ∧
    (((screenList (some "HDMI1")).all fun s => !hasNL s) = true) ∧
    ((["--verbose", "2"].all fun a => !hasNL a) = true) ∧
    hasNL (build_command_string
      ⟨some "HDMI1", false, .setMode "1920x1080", ["--verbose", "2"]⟩) = false :=
  ⟨by decide, by decide, by decide,
    c9_newline_free (some "HDMI1") false (Commands.setMode "1920x1080")
      ["--verbose", "2"] (by decide) (by decide) (by decide)⟩

/-- C10: with an empty trailing-argument list the trailing-argument step
appends nothing: the encoder output equals the output of the encoder with
that step removed, so the step introduces no trailing separator space. -/
theorem c10_empty_args_no_step (screen : Option String) (l : Bool) (c : Commands) :
    build_command_string ⟨screen, l, c, []⟩ =
      build_command_string_dropArgsStep ⟨screen, l, c, []⟩ ∧
    argsPart ([] : List String) = "" :=
  ⟨rfl, rfl⟩

end Regmsg
